import Mathlib

/-!
Verification of the policy-assembly core of
`aws-firewall-manager-automations-for-aws-organizations`.

The first part is a shallow embedding of `source/resources/lib/iam.ts`:
the `IAMConstruct` constructor builds two IAM policies (`readPolicy`,
`writePolicy`) from a props record `IIam`, adding eleven fixed
`PolicyStatement`s (`po0` … `po10`) and attaching hard-coded cfn_nag
suppression metadata to each policy.

The second part models, from the specification, the grant-catalog
Statement Compiler (catalog validation, placeholder resolution and
suppression emission); that component is described by the specification
but its code is not part of the repository sources, which hard-code the
compiler's output instead.
-/

namespace FMSIam

/-- Effect of an IAM policy statement, from `@aws-cdk/aws-iam`. -/
inductive Effect where
  | ALLOW
  | DENY
deriving DecidableEq, Repr

/-- Access class of a grant / policy document: the read-only document or
the mutating document. -/
inductive AccessClass where
  | READ
  | WRITE
deriving DecidableEq, Repr

/-- Condition block of a statement: a mapping from condition operator to a
mapping of condition key to expected value, as in the `conditions` field of
`po9` in `iam.ts`. -/
abbrev Conditions := List (String × List (String × String))

/-- One compiled IAM policy statement, the shape produced by
`new PolicyStatement({...})` in `iam.ts`. -/
structure Statement where
  sid : String
  effect : Effect
  actions : List String
  resources : List String
  conditions : Conditions
deriving DecidableEq, Repr

/-- One cfn_nag `rules_to_suppress` entry: a (ruleId, reason) pair. -/
structure Suppression where
  id : String
  reason : String
deriving DecidableEq, Repr

/-- A compiled policy document: the statements added to one `Policy`
construct plus the cfn_nag suppression metadata attached to it. -/
structure PolicyDoc where
  statements : List Statement
  suppressions : List Suppression
deriving DecidableEq, Repr

/-- Props record `IIam` of `iam.ts`: the resolved resource identifiers
supplied by the provisioning layer. `role` is the role the policies are
attached to; `s3BucketArn` stands for `props.s3Bucket.bucketArn`. -/
structure IIam where
  policyTable : String
  logGroup : String
  sqs : String
  role : String
  accountId : String
  region : String
  metricsQueue : String
  regionParamArn : String
  ouParamArn : String
  tagParamArn : String
  s3BucketArn : String
deriving DecidableEq, Repr

/-- Statement `po0` of `iam.ts`: general EC2 read permissions. -/
def po0 : Statement :=
  { sid := "EC2Read0"
    effect := .ALLOW
    actions := ["ec2:DescribeRegions"]
    resources := ["*"]
    conditions := [] }

/-- Statement `po1` of `iam.ts`: DynamoDB permissions on the policy table. -/
def po1 (p : IIam) : Statement :=
  { sid := "DDBWrite01"
    effect := .ALLOW
    actions := ["dynamodb:GetItem", "dynamodb:UpdateItem", "dynamodb:DeleteItem"]
    resources :=
      ["arn:aws:dynamodb:" ++ p.region ++ ":" ++ p.accountId ++ ":table/" ++ p.policyTable]
    conditions := [] }

/-- Statement `po2` of `iam.ts`: Firewall Manager put/delete policy. -/
def po2 : Statement :=
  { sid := "FMSWrite021"
    effect := .ALLOW
    actions := ["fms:PutPolicy", "fms:DeletePolicy"]
    resources := ["arn:aws:fms:*:*:policy/*"]
    conditions := [] }

/-- Statement `po3` of `iam.ts`: CloudWatch Logs permissions. -/
def po3 (p : IIam) : Statement :=
  { sid := "CloudWatchLogsWrite03"
    effect := .ALLOW
    actions := ["logs:CreateLogStream", "logs:PutLogEvents", "logs:CreateLogGroup"]
    resources := [p.logGroup]
    conditions := [] }

/-- Statement `po4` of `iam.ts`: SQS permissions. -/
def po4 (p : IIam) : Statement :=
  { sid := "SQSWrite04"
    effect := .ALLOW
    actions := ["sqs:SendMessage"]
    resources :=
      [p.sqs, "arn:aws:sqs:" ++ p.region ++ ":" ++ p.accountId ++ ":" ++ p.metricsQueue]
    conditions := [] }

/-- Statement `po5` of `iam.ts`: SSM parameter reads. -/
def po5 (p : IIam) : Statement :=
  { sid := "SSMRead05"
    effect := .ALLOW
    actions := ["ssm:GetParameter"]
    resources := [p.regionParamArn, p.ouParamArn, p.tagParamArn]
    conditions := [] }

/-- Statement `po6` of `iam.ts`: S3 policy-manifest reads. -/
def po6 (p : IIam) : Statement :=
  { sid := "S3Read06"
    effect := .ALLOW
    actions := ["s3:GetObject"]
    resources := [p.s3BucketArn, p.s3BucketArn ++ "/*"]
    conditions := [] }

/-- Statement `po7` of `iam.ts`: WAF and Shield permissions. -/
def po7 : Statement :=
  { sid := "WAFWrite07"
    effect := .ALLOW
    actions := ["wafv2:*", "shield:GetSubscriptionState"]
    resources := ["*"]
    conditions := [] }

/-- Statement `po8` of `iam.ts`: DNS Firewall permissions. -/
def po8 : Statement :=
  { sid := "DNSWrite08"
    effect := .ALLOW
    actions :=
      ["route53resolver:CreateFirewallRule", "route53resolver:CreateFirewallRuleGroup",
        "route53resolver:DeleteFirewallRuleGroup", "route53resolver:ListFirewallRules",
        "route53resolver:DeleteFirewallRule", "route53resolver:GetFirewallRuleGroup"]
    resources := ["*"]
    conditions := [] }

/-- Statement `po9` of `iam.ts`: RAM delete, conditioned on the FMManaged
resource tag. -/
def po9 : Statement :=
  { sid := "RAMWrite09"
    effect := .ALLOW
    actions := ["ram:DeleteResourceShare"]
    resources := ["*"]
    conditions := [("StringEquals", [("aws:ResourceTag/FMManaged", "true")])] }

/-- Statement `po10` of `iam.ts`: DNS Firewall and RAM reads. -/
def po10 : Statement :=
  { sid := "DNSRAMRead10"
    effect := .ALLOW
    actions :=
      ["route53resolver:ListFirewallDomainLists", "route53resolver:ListFirewallRuleGroups",
        "ram:ListResources"]
    resources := ["*"]
    conditions := [] }

/-- The cfn_nag suppression metadata attached to `readPolicy` in `iam.ts`. -/
def readSuppressions : List Suppression :=
  [{ id := "W12"
     reason := "* needed for [ec2:DescribeRegions, route53resolver:ListFirewallDomainLists, route53resolver:ListFirewallRuleGroups, ram:ListResources], does no support resource level permissions" }]

/-- The cfn_nag suppression metadata attached to `writePolicy` in `iam.ts`. -/
def writeSuppressions : List Suppression :=
  [{ id := "W12"
     reason := "* resource used for fms and route53resolver actions, resources are created/deleted as part of solution" },
   { id := "F4"
     reason := "Read & Write permissions needed to create WAFv2 policies" }]

/-- The read policy document built by the `IAMConstruct` constructor:
statements in the order of the `readPolicy.addStatements` calls
(`po0`, `po5`, `po6`, `po10`), with the read suppression metadata. -/
def readPolicy (p : IIam) : PolicyDoc :=
  { statements := [po0, po5 p, po6 p, po10]
    suppressions := readSuppressions }

/-- The write policy document built by the `IAMConstruct` constructor:
statements in the order of the `writePolicy.addStatements` calls
(`po1` … `po4`, `po7` … `po9`), with the write suppression metadata. -/
def writePolicy (p : IIam) : PolicyDoc :=
  { statements := [po1 p, po2, po3 p, po4 p, po7, po8, po9]
    suppressions := writeSuppressions }

/-- The constructor's sequence of statement-construction calls in source
order `po0` … `po10`, each paired with the access class of the policy the
statement is added to. This is the code's grant catalog: one entry per
statement-construction call. -/
def statementCatalog (p : IIam) : List (AccessClass × Statement) :=
  [(.READ, po0), (.WRITE, po1 p), (.WRITE, po2), (.WRITE, po3 p), (.WRITE, po4 p),
    (.READ, po5 p), (.READ, po6 p), (.WRITE, po7), (.WRITE, po8), (.WRITE, po9),
    (.READ, po10)]

/-- The document that receives statements of a given access class. -/
def docFor (p : IIam) : AccessClass → PolicyDoc
  | .READ => readPolicy p
  | .WRITE => writePolicy p

/-- The document other than the one of a given access class. -/
def otherDoc (p : IIam) : AccessClass → PolicyDoc
  | .READ => writePolicy p
  | .WRITE => readPolicy p

/-- Numeric value of the trailing digit run of a string, used to read the
hand-assigned numeric suffix out of a sid such as `"SSMRead05"`. -/
def trailingNum (s : String) : Nat :=
  ((s.toList.reverse.takeWhile (fun ch => ch.isDigit)).reverse).foldl
    (fun n ch => 10 * n + (ch.toNat - 48)) 0

/-- Sequential sid numbering within one document starting at base `b`:
the trailing numbers of the document's sids, in order, are
`b, b + 1, b + 2, …` with no gaps. -/
def seqWithin (d : PolicyDoc) (b : Nat) : Prop :=
  d.statements.map (fun s => trailingNum s.sid) = List.range' b d.statements.length

instance (d : PolicyDoc) (b : Nat) : Decidable (seqWithin d b) := by
  unfold seqWithin; infer_instance

/-- A concrete props record used for counterexamples. -/
def props0 : IIam :=
  { policyTable := "table", logGroup := "lg", sqs := "q", role := "r"
    accountId := "111122223333", region := "us-east-1", metricsQueue := "mq"
    regionParamArn := "arnR", ouParamArn := "arnO", tagParamArn := "arnT"
    s3BucketArn := "arnB" }

/-!
The spec-modelled Statement Compiler. The specification (§3, §4, §7)
describes a Grant Catalog plus a grant-to-statement compiler with
validation, placeholder resolution and suppression emission; the
repository's sources hard-code that compiler's output in `iam.ts` and do
not contain the compiler itself, so the following definitions are
modelled from the specification's words.
-/

/-- Modelled from the spec: one capability grant of the Grant Catalog (§3):
id, access class, action set, resource patterns (possibly templated, with
placeholder names between braces), optional conditions, and the
justification required exactly when a resource pattern is the unscoped
wildcard. `tag` is the short semantic tag the sid is derived from
(§4.2 step 3). -/
structure Grant where
  id : String
  accessClass : AccessClass
  tag : String
  actions : List String
  resourcePatterns : List String
  conditions : Conditions
  justification : String
deriving DecidableEq, Repr

/-- Modelled from the spec: the construction-time checks on one grant
(§4.1): non-empty `actions`, non-empty `resourcePatterns`, a wildcard
entry requires a non-empty justification and a justification requires a
wildcard entry. Returns one human-readable message per violation. -/
def grantViolations (g : Grant) : List String :=
  (if g.actions = [] then ["grant " ++ g.id ++ ": empty actions"] else []) ++
    (if g.resourcePatterns = [] then ["grant " ++ g.id ++ ": empty resourcePatterns"] else []) ++
    (if "*" ∈ g.resourcePatterns ∧ g.justification = "" then
      ["grant " ++ g.id ++ ": wildcard resource without justification"] else []) ++
    (if "*" ∉ g.resourcePatterns ∧ g.justification ≠ "" then
      ["grant " ++ g.id ++ ": justification without wildcard resource"] else [])

/-- The ids of all grants of a catalog, in catalog order. -/
def catalogIds (c : List Grant) : List String :=
  c.map (fun g => g.id)

/-- Modelled from the spec: one message per id that occurs more than once
in the catalog (§4.1). -/
def dupIdMsgs (c : List Grant) : List String :=
  (((catalogIds c).filter (fun i => 1 < (catalogIds c).count i)).dedup).map
    (fun i => "duplicate grant id: " ++ i)

/-- Modelled from the spec: every violation of every construction-time
invariant of the catalog, aggregated into one list (§4.1, §7). -/
def catalogViolations (c : List Grant) : List String :=
  dupIdMsgs c ++ (c.map grantViolations).flatten

/-- Modelled from the spec: the placeholder names of a templated resource
pattern, scanned left to right: the text between an opening brace and the
next closing brace (§3, §4.2 step 2). The second argument carries the
partially read placeholder name, if the scanner stands inside braces. -/
def placeholdersAux : List Char → Option String → List String
  | [], _ => []
  | c :: cs, none =>
      if c = '{' then placeholdersAux cs (some "") else placeholdersAux cs none
  | c :: cs, some acc =>
      if c = '}' then acc :: placeholdersAux cs none
      else placeholdersAux cs (some (acc.push c))

/-- The placeholder names of a templated resource pattern. -/
def placeholders (s : String) : List String :=
  placeholdersAux s.toList none

/-- Modelled from the spec: resolve one templated resource pattern against
the resolved-identifier map, substituting the map's value for each
placeholder and failing with the name of the first placeholder that is
absent from the map (§4.2 step 2). -/
def resolveAux (m : List (String × String)) : List Char → Option String → Except String String
  | [], _ => .ok ""
  | c :: cs, none =>
      if c = '{' then resolveAux m cs (some "")
      else
        match resolveAux m cs none with
        | .ok r => .ok (String.singleton c ++ r)
        | .error e => .error e
  | c :: cs, some acc =>
      if c = '}' then
        match List.lookup acc m with
        | some v =>
            match resolveAux m cs none with
            | .ok r => .ok (v ++ r)
            | .error e => .error e
        | none => .error acc
      else resolveAux m cs (some (acc.push c))

/-- Resolve one templated resource pattern. -/
def resolvePattern (m : List (String × String)) (s : String) : Except String String :=
  resolveAux m s.toList none

/-- Resolve every resource pattern of a list, failing on the first missing
placeholder. -/
def resolveList (m : List (String × String)) : List String → Except String (List String)
  | [] => .ok []
  | p :: ps =>
      match resolvePattern m p with
      | .error e => .error e
      | .ok r =>
          match resolveList m ps with
          | .error e => .error e
          | .ok rs => .ok (r :: rs)

/-- Resolve every templated resource pattern of one grant. -/
def resolveGrant (m : List (String × String)) (g : Grant) : Except String Grant :=
  match resolveList m g.resourcePatterns with
  | .error e => .error e
  | .ok rs => .ok { g with resourcePatterns := rs }

/-- Resolve every grant of the catalog, in catalog order. -/
def resolveCatalog (m : List (String × String)) : List Grant → Except String (List Grant)
  | [] => .ok []
  | g :: gs =>
      match resolveGrant m g with
      | .error e => .error e
      | .ok g2 =>
          match resolveCatalog m gs with
          | .error e => .error e
          | .ok gs2 => .ok (g2 :: gs2)

/-- The word appearing in sids of a given access class. -/
def className : AccessClass → String
  | .READ => "Read"
  | .WRITE => "Write"

/-- Modelled from the spec: the statement compiled from one resolved grant
(§4.2 step 3): effect ALLOW, a sid derived from the semantic tag, the
access class and the sequence index within the grant's partition, the
grant's actions, resolved resource patterns and conditions. -/
def mkStmt (i : Nat) (g : Grant) : Statement :=
  { sid := g.tag ++ className g.accessClass ++ toString i
    effect := .ALLOW
    actions := g.actions
    resources := g.resourcePatterns
    conditions := g.conditions }

/-- Compile a partition into statements, numbering sequentially from `i`. -/
def buildStatements : Nat → List Grant → List Statement
  | _, [] => []
  | i, g :: gs => mkStmt i g :: buildStatements (i + 1) gs

/-- Modelled from the spec: append the (W12, justification) suppression
pair for a wildcard-resource grant, unless an identical (ruleId, reason)
pair is already present — identical reasons recurring across grants are
deduplicated only when the ruleId is the same (§4.2 step 4). -/
def addSupp (acc : List Suppression) (g : Grant) : List Suppression :=
  if "*" ∈ g.resourcePatterns then
    if { id := "W12", reason := g.justification : Suppression } ∈ acc then acc
    else acc ++ [{ id := "W12", reason := g.justification }]
  else acc

/-- The partition of the catalog belonging to one access class, in catalog
order (§4.2 step 1). -/
def partOf (cls : AccessClass) (c : List Grant) : List Grant :=
  c.filter (fun g => g.accessClass = cls)

/-- Modelled from the spec: the policy document of one access class,
compiled from a resolved catalog (§4.2 steps 1, 3, 4, 5). -/
def buildDoc (cls : AccessClass) (rc : List Grant) : PolicyDoc :=
  { statements := buildStatements 0 (partOf cls rc)
    suppressions := (partOf cls rc).foldl addSupp [] }

/-- Modelled from the spec: the two failure kinds of compilation (§7):
an aggregated ValidationError listing every catalog violation, or a
ResolutionError naming a missing placeholder. -/
inductive CompileError where
  | validation (violations : List String)
  | resolution (missing : String)
deriving DecidableEq, Repr

/-- Modelled from the spec: the Statement Compiler (§4.2, §7): validate
the catalog, aggregating every violation; resolve each grant's templated
resource patterns; and build the READ and WRITE policy documents. On any
failure no document is produced. -/
def compile (c : List Grant) (m : List (String × String)) :
    Except CompileError (PolicyDoc × PolicyDoc) :=
  if catalogViolations c = [] then
    match resolveCatalog m c with
    | .error y => .error (.resolution y)
    | .ok rc => .ok (buildDoc .READ rc, buildDoc .WRITE rc)
  else .error (.validation (catalogViolations c))

instance {ε α : Type} [DecidableEq ε] [DecidableEq α] : DecidableEq (Except ε α)
  | .ok a, .ok b => decidable_of_iff (a = b) (by simp)
  | .ok _, .error _ => .isFalse (by intro h; cases h)
  | .error _, .ok _ => .isFalse (by intro h; cases h)
  | .error a, .error b => decidable_of_iff (a = b) (by simp)

/-- Resolution is wildcard-stable for a catalog and map when no templated
resource pattern resolves to the bare unscoped wildcard: a resolved entry
is `*` exactly when the original entry is the literal `*`. -/
def wildcardStable (c : List Grant) (m : List (String × String)) : Prop :=
  ∀ g ∈ c, ∀ pat ∈ g.resourcePatterns, ∀ r, resolvePattern m pat = .ok r →
    (r = "*" ↔ pat = "*")

/-- The wildcard-justification law for one compiled document, stated
against the partition of the original catalog that produced it: the
document has one statement per grant of the partition; a statement's
resources contain the unscoped wildcard exactly when its originating
grant carried a non-empty justification, and then that justification
appears verbatim as the reason of a (W12, reason) pair of the document's
suppressions; and the suppressions are duplicate-free and consist of
nothing but such pairs, each backed by a wildcard-resource grant of the
partition. -/
def wcLaw (cls : AccessClass) (c : List Grant) (doc : PolicyDoc) : Prop :=
  List.Forall₂
    (fun g s =>
      ("*" ∈ s.resources ↔ g.justification ≠ "") ∧
        ("*" ∈ s.resources →
          { id := "W12", reason := g.justification : Suppression } ∈ doc.suppressions))
    (partOf cls c) doc.statements ∧
  doc.suppressions.Nodup ∧
  ∀ s ∈ doc.suppressions, s.id = "W12" ∧
    ∃ g ∈ partOf cls c, "*" ∈ g.resourcePatterns ∧ g.justification = s.reason ∧
      g.justification ≠ ""

/-- The pointwise relation between an original grant and its resolved
counterpart: every field unchanged except `resourcePatterns`, which is the
successful resolution of the original patterns. -/
def GrantRes (m : List (String × String)) (g g2 : Grant) : Prop :=
  g2.id = g.id ∧ g2.accessClass = g.accessClass ∧ g2.tag = g.tag ∧
    g2.actions = g.actions ∧ g2.conditions = g.conditions ∧
    g2.justification = g.justification ∧
    resolveList m g.resourcePatterns = .ok g2.resourcePatterns

/-- The specification's scenario grant (§8): one READ grant for
`ec2:DescribeRegions` on the unscoped wildcard, justified. -/
def ec2Grant : Grant :=
  { id := "ec2", accessClass := .READ, tag := "EC2", actions := ["ec2:DescribeRegions"],
    resourcePatterns := ["*"], conditions := [], justification := "no resource-level support" }

/-- The READ document the scenario catalog `[ec2Grant]` compiles to. -/
def scenarioReadDoc : PolicyDoc :=
  { statements :=
      [{ sid := "EC2Read0", effect := .ALLOW, actions := ["ec2:DescribeRegions"],
         resources := ["*"], conditions := [] }]
    suppressions := [{ id := "W12", reason := "no resource-level support" }] }

/-- The WRITE document the scenario catalog `[ec2Grant]` compiles to. -/
def scenarioWriteDoc : PolicyDoc :=
  { statements := [], suppressions := [] }

/-- The specification's scenario grant (§8): a WRITE grant on the templated
DynamoDB table pattern. -/
def ddbGrant : Grant :=
  { id := "ddb", accessClass := .WRITE, tag := "DDB", actions := ["dynamodb:GetItem"],
    resourcePatterns := ["arn:aws:dynamodb:{region}:{account}:table/{policyTable}"],
    conditions := [], justification := "" }

/-- A resolved-identifier map that misses the `policyTable` placeholder. -/
def ddbMap : List (String × String) :=
  [("region", "us-east-1"), ("account", "111122223333")]

/-- A structurally valid WRITE grant, duplicated to form an invalid catalog. -/
def sqsGrant : Grant :=
  { id := "sqs", accessClass := .WRITE, tag := "SQS", actions := ["sqs:SendMessage"],
    resourcePatterns := ["arn:aws:sqs:us-east-1:111122223333:q"], conditions := [],
    justification := "" }

/-!
Helper lemmas about the embedded definitions.
-/

lemma grantViolations_nil_iff {g : Grant} (h : grantViolations g = []) :
    g.actions ≠ [] ∧ g.resourcePatterns ≠ [] ∧ ("*" ∈ g.resourcePatterns ↔ g.justification ≠ "") := by
  unfold grantViolations at h
  rw [List.append_eq_nil, List.append_eq_nil, List.append_eq_nil] at h
  obtain ⟨⟨⟨h1, h2⟩, h3⟩, h4⟩ := h
  refine ⟨?_, ?_, ?_, ?_⟩
  · intro hx; simp [hx] at h1
  · intro hx; simp [hx] at h2
  · intro hw heq
    simp [hw, heq] at h3
  · intro hj
    by_contra hw
    simp [hw, hj] at h4

lemma catalogViolations_nil {c : List Grant} (h : catalogViolations c = []) :
    ∀ g ∈ c, grantViolations g = [] := by
  intro g hg
  unfold catalogViolations at h
  rw [List.append_eq_nil] at h
  have h2 := h.2
  rw [List.flatten_eq_nil_iff] at h2
  exact h2 _ (List.mem_map_of_mem _ hg)

lemma mem_foldl_addSupp : ∀ (l : List Grant) (acc : List Suppression) (s : Suppression),
    s ∈ l.foldl addSupp acc ↔
      s ∈ acc ∨ ∃ g ∈ l, "*" ∈ g.resourcePatterns ∧ s = { id := "W12", reason := g.justification } := by
  intro l
  induction l with
  | nil => intro acc s; simp
  | cons g l ih =>
    intro acc s
    rw [List.foldl_cons, ih]
    unfold addSupp
    constructor
    · rintro (hs | ⟨g2, hg2, hw, rfl⟩)
      · split at hs
        · split at hs
          · exact .inl hs
          · rcases List.mem_append.mp hs with h | h
            · exact .inl h
            · simp only [List.mem_singleton] at h
              exact .inr ⟨g, List.mem_cons_self .., by assumption, h⟩
        · exact .inl hs
      · exact .inr ⟨g2, List.mem_cons_of_mem _ hg2, hw, rfl⟩
    · rintro (hs | ⟨g2, hg2, hw, rfl⟩)
      · left
        split
        · split
          · exact hs
          · exact List.mem_append_left _ hs
        · exact hs
      · rcases List.mem_cons.mp hg2 with rfl | hg2
        · left
          split
          · split
            · assumption
            · exact List.mem_append_right _ (List.mem_singleton.mpr rfl)
          · simp_all
        · exact .inr ⟨g2, hg2, hw, rfl⟩

lemma nodup_foldl_addSupp : ∀ (l : List Grant) (acc : List Suppression),
    acc.Nodup → (l.foldl addSupp acc).Nodup := by
  intro l
  induction l with
  | nil => intro acc h; simpa
  | cons g l ih =>
    intro acc h
    rw [List.foldl_cons]
    apply ih
    unfold addSupp
    split
    · split
      · exact h
      · simp [List.nodup_append, h, *]
    · exact h

lemma resolveAux_ok_lookup {m : List (String × String)} :
    ∀ (cs : List Char) (st : Option String) (r : String), resolveAux m cs st = .ok r →
      ∀ x ∈ placeholdersAux cs st, ∃ v, List.lookup x m = some v := by
  intro cs
  induction cs with
  | nil => intro st r _ x hx; simp [placeholdersAux] at hx
  | cons c cs ih =>
    intro st r hr x hx
    cases st with
    | none =>
      rw [resolveAux] at hr
      rw [placeholdersAux] at hx
      by_cases hc : c = '{'
      · rw [if_pos hc] at hr hx
        exact ih _ _ hr x hx
      · rw [if_neg hc] at hr hx
        cases hrec : resolveAux m cs none with
        | ok r2 => exact ih _ _ hrec x hx
        | error e => rw [hrec] at hr; cases hr
    | some acc =>
      rw [resolveAux] at hr
      rw [placeholdersAux] at hx
      by_cases hc : c = '}'
      · rw [if_pos hc] at hr hx
        cases hlk : List.lookup acc m with
        | none => rw [hlk] at hr; cases hr
        | some v =>
          rw [hlk] at hr
          rcases List.mem_cons.mp hx with rfl | hx2
          · exact ⟨v, hlk⟩
          · cases hrec : resolveAux m cs none with
            | ok r2 => exact ih _ _ hrec x hx2
            | error e => rw [hrec] at hr; cases hr
      · rw [if_neg hc] at hr hx
        exact ih _ _ hr x hx

lemma resolveAux_error_missing {m : List (String × String)} :
    ∀ (cs : List Char) (st : Option String) (y : String), resolveAux m cs st = .error y →
      y ∈ placeholdersAux cs st ∧ List.lookup y m = none := by
  intro cs
  induction cs with
  | nil => intro st y hy; rw [resolveAux] at hy; cases hy
  | cons c cs ih =>
    intro st y hy
    cases st with
    | none =>
      rw [resolveAux] at hy
      rw [placeholdersAux]
      by_cases hc : c = '{'
      · rw [if_pos hc] at hy ⊢
        exact ih _ _ hy
      · rw [if_neg hc] at hy ⊢
        cases hrec : resolveAux m cs none with
        | ok r2 => rw [hrec] at hy; cases hy
        | error e =>
          rw [hrec] at hy
          cases hy
          exact ih _ _ hrec
    | some acc =>
      rw [resolveAux] at hy
      rw [placeholdersAux]
      by_cases hc : c = '}'
      · rw [if_pos hc] at hy ⊢
        cases hlk : List.lookup acc m with
        | none =>
          rw [hlk] at hy
          cases hy
          exact ⟨List.mem_cons_self .., hlk⟩
        | some v =>
          rw [hlk] at hy
          cases hrec : resolveAux m cs none with
          | ok r2 => rw [hrec] at hy; cases hy
          | error e =>
            rw [hrec] at hy
            cases hy
            have h := ih _ _ hrec
            exact ⟨List.mem_cons_of_mem _ h.1, h.2⟩
      · rw [if_neg hc] at hy ⊢
        exact ih _ _ hy

lemma resolveList_ok_forall2 {m : List (String × String)} :
    ∀ (ps rs : List String), resolveList m ps = .ok rs →
      List.Forall₂ (fun p r => resolvePattern m p = .ok r) ps rs := by
  intro ps
  induction ps with
  | nil => intro rs h; rw [resolveList] at h; cases h; exact .nil
  | cons p ps ih =>
    intro rs h
    rw [resolveList] at h
    cases hp : resolvePattern m p with
    | error e => rw [hp] at h; cases h
    | ok r =>
      rw [hp] at h
      cases hps : resolveList m ps with
      | error e => rw [hps] at h; cases h
      | ok rs2 =>
        rw [hps] at h
        cases h
        exact .cons hp (ih _ hps)

lemma resolveList_ok_lookup {m : List (String × String)} :
    ∀ (ps rs : List String), resolveList m ps = .ok rs →
      ∀ pat ∈ ps, ∀ x ∈ placeholders pat, ∃ v, List.lookup x m = some v := by
  intro ps
  induction ps with
  | nil => intro rs h pat hpat; cases hpat
  | cons p ps ih =>
    intro rs h pat hpat x hx
    rw [resolveList] at h
    cases hp : resolvePattern m p with
    | error e => rw [hp] at h; cases h
    | ok r =>
      rw [hp] at h
      cases hps : resolveList m ps with
      | error e => rw [hps] at h; cases h
      | ok rs2 =>
        rcases List.mem_cons.mp hpat with rfl | hpat2
        · exact resolveAux_ok_lookup _ _ _ hp x hx
        · exact ih _ hps pat hpat2 x hx

lemma resolveList_error_missing {m : List (String × String)} :
    ∀ (ps : List String) (y : String), resolveList m ps = .error y →
      (∃ pat ∈ ps, y ∈ placeholders pat) ∧ List.lookup y m = none := by
  intro ps
  induction ps with
  | nil => intro y h; rw [resolveList] at h; cases h
  | cons p ps ih =>
    intro y h
    rw [resolveList] at h
    cases hp : resolvePattern m p with
    | error e =>
      rw [hp] at h
      cases h
      have h2 := resolveAux_error_missing _ _ _ hp
      exact ⟨⟨p, List.mem_cons_self .., h2.1⟩, h2.2⟩
    | ok r =>
      rw [hp] at h
      cases hps : resolveList m ps with
      | error e =>
        rw [hps] at h
        cases h
        obtain ⟨⟨pat, hpat, hy⟩, hlk⟩ := ih _ hps
        exact ⟨⟨pat, List.mem_cons_of_mem _ hpat, hy⟩, hlk⟩
      | ok rs2 => rw [hps] at h; cases h

lemma resolveCatalog_ok_forall2 {m : List (String × String)} :
    ∀ (c rc : List Grant), resolveCatalog m c = .ok rc → List.Forall₂ (GrantRes m) c rc := by
  intro c
  induction c with
  | nil => intro rc h; rw [resolveCatalog] at h; cases h; exact .nil
  | cons g gs ih =>
    intro rc h
    rw [resolveCatalog] at h
    cases hg : resolveGrant m g with
    | error e => rw [hg] at h; cases h
    | ok g2 =>
      rw [hg] at h
      cases hgs : resolveCatalog m gs with
      | error e => rw [hgs] at h; cases h
      | ok gs2 =>
        rw [hgs] at h
        cases h
        refine .cons ?_ (ih _ hgs)
        rw [resolveGrant] at hg
        cases hrl : resolveList m g.resourcePatterns with
        | error e => rw [hrl] at hg; cases hg
        | ok rs =>
          rw [hrl] at hg
          cases hg
          exact ⟨rfl, rfl, rfl, rfl, rfl, rfl, hrl⟩

lemma resolveCatalog_error_missing {m : List (String × String)} :
    ∀ (c : List Grant) (y : String), resolveCatalog m c = .error y →
      (∃ g ∈ c, ∃ pat ∈ g.resourcePatterns, y ∈ placeholders pat) ∧ List.lookup y m = none := by
  intro c
  induction c with
  | nil => intro y h; rw [resolveCatalog] at h; cases h
  | cons g gs ih =>
    intro y h
    rw [resolveCatalog] at h
    cases hg : resolveGrant m g with
    | error e =>
      rw [hg] at h
      cases h
      rw [resolveGrant] at hg
      cases hrl : resolveList m g.resourcePatterns with
      | error e2 =>
        rw [hrl] at hg
        cases hg
        obtain ⟨⟨pat, hpat, hy⟩, hlk⟩ := resolveList_error_missing _ _ hrl
        exact ⟨⟨g, List.mem_cons_self .., pat, hpat, hy⟩, hlk⟩
      | ok rs => rw [hrl] at hg; cases hg
    | ok g2 =>
      rw [hg] at h
      cases hgs : resolveCatalog m gs with
      | error e =>
        rw [hgs] at h
        cases h
        obtain ⟨⟨g3, hg3, pat, hpat, hy⟩, hlk⟩ := ih _ hgs
        exact ⟨⟨g3, List.mem_cons_of_mem _ hg3, pat, hpat, hy⟩, hlk⟩
      | ok gs2 => rw [hgs] at h; cases h

lemma resolveCatalog_ok_lookup {m : List (String × String)} :
    ∀ (c rc : List Grant), resolveCatalog m c = .ok rc →
      ∀ g ∈ c, ∀ pat ∈ g.resourcePatterns, ∀ x ∈ placeholders pat, ∃ v, List.lookup x m = some v := by
  intro c
  induction c with
  | nil => intro rc h g hg; cases hg
  | cons g0 gs ih =>
    intro rc h g hg pat hpat x hx
    rw [resolveCatalog] at h
    cases hg0 : resolveGrant m g0 with
    | error e => rw [hg0] at h; cases h
    | ok g2 =>
      rw [hg0] at h
      cases hgs : resolveCatalog m gs with
      | error e => rw [hgs] at h; cases h
      | ok gs2 =>
        rcases List.mem_cons.mp hg with rfl | hg2
        · rw [resolveGrant] at hg0
          cases hrl : resolveList m g.resourcePatterns with
          | error e2 => rw [hrl] at hg0; cases hg0
          | ok rs => exact resolveList_ok_lookup _ _ hrl pat hpat x hx
        · exact ih _ hgs g hg2 pat hpat x hx

lemma forall2_mem_right {α β : Type} {R : α → β → Prop} :
    ∀ {l : List α} {l2 : List β}, List.Forall₂ R l l2 → ∀ b ∈ l2, ∃ a ∈ l, R a b := by
  intro l l2 h
  induction h with
  | nil => intro b hb; cases hb
  | cons hR htail ih =>
    intro b hb
    rcases List.mem_cons.mp hb with rfl | hb2
    · exact ⟨_, List.mem_cons_self .., hR⟩
    · obtain ⟨a, ha, hab⟩ := ih b hb2
      exact ⟨a, List.mem_cons_of_mem _ ha, hab⟩

lemma forall2_filter {α β : Type} {R : α → β → Prop} {p : α → Bool} {q : β → Bool}
    (hpq : ∀ a b, R a b → p a = q b) :
    ∀ {l : List α} {l2 : List β}, List.Forall₂ R l l2 →
      List.Forall₂ R (l.filter p) (l2.filter q) := by
  intro l l2 h
  induction h with
  | nil => exact .nil
  | cons hR htail ih =>
    rename_i a b l l2
    rw [List.filter_cons, List.filter_cons, ← hpq a b hR]
    cases hp : p a with
    | false => simpa [hp] using ih
    | true => simpa [hp] using List.Forall₂.cons hR ih

lemma forall2_mem_imp {α β : Type} {R Q : α → β → Prop} :
    ∀ {l : List α} {l2 : List β}, List.Forall₂ R l l2 →
      (∀ a ∈ l, ∀ b ∈ l2, R a b → Q a b) → List.Forall₂ Q l l2 := by
  intro l l2 h
  induction h with
  | nil => intro _; exact .nil
  | cons hR htail ih =>
    intro himp
    refine .cons (himp _ (List.mem_cons_self ..) _ (List.mem_cons_self ..) hR) (ih ?_)
    intro a ha b hb hab
    exact himp a (List.mem_cons_of_mem _ ha) b (List.mem_cons_of_mem _ hb) hab

lemma buildStatements_forall2 {P : Grant → Grant → Prop} :
    ∀ {l l2 : List Grant}, List.Forall₂ P l l2 → ∀ i,
      List.Forall₂ (fun g s => ∃ g2 ∈ l2, P g g2 ∧ ∃ j, s = mkStmt j g2) l
        (buildStatements i l2) := by
  intro l l2 h
  induction h with
  | nil => intro i; exact .nil
  | cons hP htail ih =>
    rename_i a b l l2
    intro i
    rw [buildStatements]
    refine .cons ⟨b, List.mem_cons_self .., hP, i, rfl⟩ ?_
    refine (ih (i + 1)).imp ?_
    rintro g s ⟨g2, hg2, hPg, j, rfl⟩
    exact ⟨g2, List.mem_cons_of_mem _ hg2, hPg, j, rfl⟩

lemma wildcard_transfer {m : List (String × String)} {ps rs : List String}
    (h : List.Forall₂ (fun p r => resolvePattern m p = .ok r) ps rs)
    (hs : ∀ pat ∈ ps, ∀ r, resolvePattern m pat = .ok r → (r = "*" ↔ pat = "*")) :
    ("*" ∈ rs ↔ "*" ∈ ps) := by
  induction h with
  | nil => simp
  | cons hp htail ih =>
    rename_i p r ps rs
    have h1 : (r = "*") ↔ (p = "*") := hs p (List.mem_cons_self ..) r hp
    have h2 := ih (fun pat hpat => hs pat (List.mem_cons_of_mem _ hpat))
    simp only [List.mem_cons]
    constructor
    · rintro (h | h)
      · exact .inl (h1.mp h.symm).symm
      · exact .inr (h2.mp h)
    · rintro (h | h)
      · exact .inl (h1.mpr h.symm).symm
      · exact .inr (h2.mpr h)

lemma wcLaw_buildDoc (cls : AccessClass) {c rc : List Grant} {m : List (String × String)}
    (hv : catalogViolations c = []) (hstab : wildcardStable c m)
    (hrc : resolveCatalog m c = .ok rc) : wcLaw cls c (buildDoc cls rc) := by
  have hf2 : List.Forall₂ (GrantRes m) c rc := resolveCatalog_ok_forall2 _ _ hrc
  have hpart : List.Forall₂ (GrantRes m) (partOf cls c) (partOf cls rc) := by
    refine forall2_filter ?_ hf2
    intro a b hab
    simp only [hab.2.1]
  have hwj : ∀ g ∈ c, ("*" ∈ g.resourcePatterns ↔ g.justification ≠ "") :=
    fun g hg => (grantViolations_nil_iff (catalogViolations_nil hv g hg)).2.2
  have htrans : ∀ g g2, g ∈ c → GrantRes m g g2 →
      ("*" ∈ g2.resourcePatterns ↔ "*" ∈ g.resourcePatterns) := by
    intro g g2 hg hres
    exact wildcard_transfer (resolveList_ok_forall2 _ _ hres.2.2.2.2.2.2)
      (fun pat hpat r hr => hstab g hg pat hpat r hr)
  refine ⟨?_, ?_, ?_⟩
  · have hb := buildStatements_forall2 hpart 0
    refine forall2_mem_imp hb ?_
    rintro g hgpart s hs ⟨g2, hg2mem, hres, j, rfl⟩
    have hgc : g ∈ c := (List.mem_filter.mp hgpart).1
    constructor
    · show ("*" ∈ g2.resourcePatterns ↔ g.justification ≠ "")
      rw [htrans g g2 hgc hres]
      exact hwj g hgc
    · intro hws
      show { id := "W12", reason := g.justification : Suppression } ∈ (buildDoc cls rc).suppressions
      have hmem : { id := "W12", reason := g2.justification : Suppression } ∈
          (partOf cls rc).foldl addSupp [] := by
        rw [mem_foldl_addSupp]
        exact .inr ⟨g2, hg2mem, hws, rfl⟩
      rw [hres.2.2.2.2.2.1] at hmem
      exact hmem
  · exact nodup_foldl_addSupp _ _ List.nodup_nil
  · intro s hs
    have hs2 : s ∈ (partOf cls rc).foldl addSupp [] := hs
    rw [mem_foldl_addSupp] at hs2
    rcases hs2 with h | ⟨g2, hg2, hw2, rfl⟩
    · cases h
    · obtain ⟨g, hgpart, hres⟩ := forall2_mem_right hpart g2 hg2
      have hgc : g ∈ c := (List.mem_filter.mp hgpart).1
      have hwg : "*" ∈ g.resourcePatterns := (htrans g g2 hgc hres).mp hw2
      exact ⟨rfl, g, hgpart, hwg, hres.2.2.2.2.2.1.symm, (hwj g hgc).mp hwg⟩

lemma mem_catalogViolations_of_grant {c : List Grant} {g : Grant} (hg : g ∈ c) {msg : String}
    (hmsg : msg ∈ grantViolations g) : msg ∈ catalogViolations c := by
  unfold catalogViolations
  refine List.mem_append_right _ ?_
  rw [List.mem_flatten]
  exact ⟨grantViolations g, List.mem_map_of_mem _ hg, hmsg⟩

lemma emptyActions_msg {g : Grant} (h : g.actions = []) :
    ("grant " ++ g.id ++ ": empty actions") ∈ grantViolations g := by
  simp [grantViolations, h]

lemma emptyPatterns_msg {g : Grant} (h : g.resourcePatterns = []) :
    ("grant " ++ g.id ++ ": empty resourcePatterns") ∈ grantViolations g := by
  simp [grantViolations, h]

lemma missingJustification_msg {g : Grant} (hw : "*" ∈ g.resourcePatterns)
    (hj : g.justification = "") :
    ("grant " ++ g.id ++ ": wildcard resource without justification") ∈ grantViolations g := by
  simp [grantViolations, hw, hj]

lemma dup_msg {c : List Grant} {i : String} (h : 1 < (catalogIds c).count i) :
    ("duplicate grant id: " ++ i) ∈ catalogViolations c := by
  unfold catalogViolations
  refine List.mem_append_left _ ?_
  unfold dupIdMsgs
  refine List.mem_map_of_mem _ ?_
  rw [List.mem_dedup, List.mem_filter]
  refine ⟨?_, ?_⟩
  · rw [← List.count_pos_iff]
    omega
  · exact decide_eq_true h

/-!
The claims.
-/

/-- C4: Sid uniqueness: for every compiled policy document (READ and
WRITE) and every props record, no two statements of the document share a
sid. -/
theorem sid_uniqueness : ∀ p : IIam,
    ((readPolicy p).statements.map (fun s => s.sid)).Nodup ∧
    ((writePolicy p).statements.map (fun s => s.sid)).Nodup := by
  intro p
  constructor
  · show (["EC2Read0", "SSMRead05", "S3Read06", "DNSRAMRead10"] : List String).Nodup
    decide
  · show (["DDBWrite01", "FMSWrite021", "CloudWatchLogsWrite03", "SQSWrite04",
      "WAFWrite07", "DNSWrite08", "RAMWrite09"] : List String).Nodup
    decide

/-- C5: Partition correctness: the read and write documents are exactly
the READ and WRITE partitions of the constructor's statement catalog, in
catalog order; every catalog entry yields exactly one statement (counted
by sid) in the document of its access class and none in the other
document; and a grant with several actions (`po1` has three) still
compiles to a single statement, so grants are the atomic compiled unit. -/
theorem partition_correctness : ∀ p : IIam,
    (readPolicy p).statements =
      ((statementCatalog p).filter (fun g => g.1 = AccessClass.READ)).map Prod.snd ∧
    (writePolicy p).statements =
      ((statementCatalog p).filter (fun g => g.1 = AccessClass.WRITE)).map Prod.snd ∧
    (∀ g ∈ statementCatalog p,
      (((docFor p g.1).statements.map (fun s => s.sid)).count g.2.sid = 1) ∧
      (((otherDoc p g.1).statements.map (fun s => s.sid)).count g.2.sid = 0)) ∧
    (po1 p).actions.length = 3 ∧
    (readPolicy p).statements.length + (writePolicy p).statements.length =
      (statementCatalog p).length := by
  intro p
  refine ⟨rfl, rfl, ?_, rfl, rfl⟩
  intro g hg
  simp only [statementCatalog, List.mem_cons, List.not_mem_nil, or_false] at hg
  rcases hg with rfl | rfl | rfl | rfl | rfl | rfl | rfl | rfl | rfl | rfl | rfl <;>
    exact ⟨by rfl, by rfl⟩

/-- C7: Determinism / idempotence: the compiled documents are a pure
function of the identifier fields of the props record alone — two props
records that agree on the ten identifier fields (the attached `role` may
even differ) compile to identical READ and WRITE documents, and
recompilation of the same record yields the same documents. -/
theorem compile_deterministic : ∀ p q : IIam,
    p.policyTable = q.policyTable → p.logGroup = q.logGroup → p.sqs = q.sqs →
    p.accountId = q.accountId → p.region = q.region → p.metricsQueue = q.metricsQueue →
    p.regionParamArn = q.regionParamArn → p.ouParamArn = q.ouParamArn →
    p.tagParamArn = q.tagParamArn → p.s3BucketArn = q.s3BucketArn →
    readPolicy p = readPolicy q ∧ writePolicy p = writePolicy q := by
  intro p q h1 h2 h3 h4 h5 h6 h7 h8 h9 h10
  cases p
  cases q
  simp only at h1 h2 h3 h4 h5 h6 h7 h8 h9 h10
  subst h1 h2 h3 h4 h5 h6 h7 h8 h9 h10
  exact ⟨rfl, rfl⟩

/-- C7 witness: the determinism theorem applied to the concrete props
record `props0` twice. -/
theorem compile_deterministic_witness :
    readPolicy props0 = readPolicy props0 ∧ writePolicy props0 = writePolicy props0 :=
  compile_deterministic props0 props0 rfl rfl rfl rfl rfl rfl rfl rfl rfl rfl

/-- C8: Statement content: every catalog entry's statement carries effect
ALLOW and appears verbatim (actions, resources, conditions included) in
the document of its access class; no statement of either document has
effect DENY; and the RAM delete statement `po9` carries its StringEquals
condition on `aws:ResourceTag/FMManaged` verbatim. -/
theorem statement_content : ∀ p : IIam,
    (∀ g ∈ statementCatalog p, g.2.effect = Effect.ALLOW ∧ g.2 ∈ (docFor p g.1).statements) ∧
    (∀ s ∈ (readPolicy p).statements, s.effect ≠ Effect.DENY) ∧
    (∀ s ∈ (writePolicy p).statements, s.effect ≠ Effect.DENY) ∧
    (∃ s ∈ (writePolicy p).statements, s.sid = "RAMWrite09" ∧
      s.actions = ["ram:DeleteResourceShare"] ∧ s.resources = ["*"] ∧
      s.conditions = [("StringEquals", [("aws:ResourceTag/FMManaged", "true")])]) := by
  intro p
  refine ⟨?_, ?_, ?_, ?_⟩
  · intro g hg
    simp only [statementCatalog, List.mem_cons, List.not_mem_nil, or_false] at hg
    rcases hg with rfl | rfl | rfl | rfl | rfl | rfl | rfl | rfl | rfl | rfl | rfl <;>
      exact ⟨by rfl, by simp [docFor, readPolicy, writePolicy]⟩
  · intro s hs
    simp only [readPolicy, List.mem_cons, List.not_mem_nil, or_false] at hs
    rcases hs with rfl | rfl | rfl | rfl <;> intro h <;> cases h
  · intro s hs
    simp only [writePolicy, List.mem_cons, List.not_mem_nil, or_false] at hs
    rcases hs with rfl | rfl | rfl | rfl | rfl | rfl | rfl <;> intro h <;> cases h
  · exact ⟨po9, by simp [writePolicy], by decide, by decide, by decide, by decide⟩

/-- C9 (implicit): the write document's suppressions always consist of the
W12 pair and additionally the F4 pair whose reason justifies the wildcard
action `wafv2:*`; the write document indeed carries a statement with the
action-level wildcard `wafv2:*`, while the read document's suppressions
carry no F4 pair — so suppressions are also emitted for action-level
wildcards, not only for wildcard resource patterns. -/
theorem write_doc_f4_suppression : ∀ p : IIam,
    (writePolicy p).suppressions =
      [{ id := "W12",
         reason := "* resource used for fms and route53resolver actions, resources are created/deleted as part of solution" },
       { id := "F4", reason := "Read & Write permissions needed to create WAFv2 policies" }] ∧
    (∃ s ∈ (writePolicy p).statements, "wafv2:*" ∈ s.actions ∧ "*" ∈ s.resources) ∧
    (readPolicy p).suppressions.map (fun s => s.id) = ["W12"] := by
  intro p
  refine ⟨rfl, ⟨po7, by simp [writePolicy], by decide, by decide⟩, rfl⟩

/-- C10 (implicit): noninterference of document structure: for any two
props records, the compiled documents have the same statement counts
(4 READ, 7 WRITE), the same sids in the same order, the same actions,
effects and conditions, and the same suppressions — the identifier map
influences only the resource strings inside statements. -/
theorem identifier_map_noninterference : ∀ p q : IIam,
    (readPolicy p).statements.length = 4 ∧
    (writePolicy p).statements.length = 7 ∧
    (readPolicy p).statements.map (fun s => s.sid) =
      (readPolicy q).statements.map (fun s => s.sid) ∧
    (writePolicy p).statements.map (fun s => s.sid) =
      (writePolicy q).statements.map (fun s => s.sid) ∧
    (readPolicy p).statements.map (fun s => s.actions) =
      (readPolicy q).statements.map (fun s => s.actions) ∧
    (writePolicy p).statements.map (fun s => s.actions) =
      (writePolicy q).statements.map (fun s => s.actions) ∧
    (readPolicy p).statements.map (fun s => s.effect) =
      (readPolicy q).statements.map (fun s => s.effect) ∧
    (writePolicy p).statements.map (fun s => s.effect) =
      (writePolicy q).statements.map (fun s => s.effect) ∧
    (readPolicy p).statements.map (fun s => s.conditions) =
      (readPolicy q).statements.map (fun s => s.conditions) ∧
    (writePolicy p).statements.map (fun s => s.conditions) =
      (writePolicy q).statements.map (fun s => s.conditions) ∧
    (readPolicy p).suppressions = (readPolicy q).suppressions ∧
    (writePolicy p).suppressions = (writePolicy q).suppressions := by
  intro p q
  exact ⟨rfl, rfl, rfl, rfl, rfl, rfl, rfl, rfl, rfl, rfl, rfl, rfl⟩

/-- C3 counterexample: sid numbering is not sequential within an access
class: in the read document the trailing numbers are 0, 5, 6, 10 — with
gaps, whatever the starting base (0 or 1) — and the write statement
`FMSWrite021` carries the number 21, which no two-digit position yields.
Stated at the concrete props record `props0`. -/
theorem sid_numbering_counterexample :
    ¬ seqWithin (readPolicy props0) 0 ∧ ¬ seqWithin (readPolicy props0) 1 ∧
    ¬ seqWithin (writePolicy props0) 0 ∧ ¬ seqWithin (writePolicy props0) 1 ∧
    (readPolicy props0).statements.map (fun s => trailingNum s.sid) = [0, 5, 6, 10] ∧
    (writePolicy props0).statements.map (fun s => trailingNum s.sid) =
      [1, 21, 3, 4, 7, 8, 9] := by
  decide

/-- C3 (amended): every sid is a fixed hand-assigned string — a semantic
tag, the access-class word, and a numeric suffix equal to the statement's
0-based position in the overall constructor sequence `po0` … `po10`
(shared across both documents, not per access class), except
`FMSWrite021`, which carries an extra trailing digit; within each document
the sids follow catalog order but their numbering has gaps. -/
theorem sid_assignment_catalog_order : ∀ p : IIam,
    ((statementCatalog p).map (fun g => trailingNum g.2.sid)) =
      [0, 1, 21, 3, 4, 5, 6, 7, 8, 9, 10] ∧
    (readPolicy p).statements.map (fun s => s.sid) =
      ["EC2Read0", "SSMRead05", "S3Read06", "DNSRAMRead10"] ∧
    (writePolicy p).statements.map (fun s => s.sid) =
      ["DDBWrite01", "FMSWrite021", "CloudWatchLogsWrite03", "SQSWrite04",
        "WAFWrite07", "DNSWrite08", "RAMWrite09"] := by
  intro p
  refine ⟨?_, rfl, rfl⟩
  show [trailingNum "EC2Read0", trailingNum "DDBWrite01", trailingNum "FMSWrite021",
    trailingNum "CloudWatchLogsWrite03", trailingNum "SQSWrite04", trailingNum "SSMRead05",
    trailingNum "S3Read06", trailingNum "WAFWrite07", trailingNum "DNSWrite08",
    trailingNum "RAMWrite09", trailingNum "DNSRAMRead10"] = [0, 1, 21, 3, 4, 5, 6, 7, 8, 9, 10]
  decide

/-- C1: Wildcard-justification law, proved of the spec-modelled Statement
Compiler: whenever compilation succeeds and resolution does not turn a
templated pattern into a bare wildcard, each document pairs its statements
one-to-one with the grants of its partition such that a statement's
resources contain `*` exactly when the originating grant carries a
non-empty justification, that justification then appears verbatim as the
reason of a (W12, reason) suppression pair of the same document, and the
suppressions list is duplicate-free and consists of nothing but such
pairs, one appended per wildcard-resource statement with identical
(ruleId, reason) pairs deduplicated. -/
theorem wildcard_justification_law (c : List Grant) (m : List (String × String))
    (r w : PolicyDoc) (hok : compile c m = .ok (r, w)) (hstab : wildcardStable c m) :
    wcLaw .READ c r ∧ wcLaw .WRITE c w := by
  unfold compile at hok
  by_cases hv : catalogViolations c = []
  · rw [if_pos hv] at hok
    cases hrc : resolveCatalog m c with
    | error y => rw [hrc] at hok; cases hok
    | ok rc =>
      rw [hrc] at hok
      injection hok with h
      have h1 := congrArg Prod.fst h
      have h2 := congrArg Prod.snd h
      simp only at h1 h2
      subst h1
      subst h2
      exact ⟨wcLaw_buildDoc _ hv hstab hrc, wcLaw_buildDoc _ hv hstab hrc⟩
  · rw [if_neg hv] at hok
    cases hok

/-- C1 witness: the specification's scenario — the catalog with the single
justified READ grant `ec2Grant` compiles (under the empty identifier map)
to the one-statement read document with sid `EC2Read0` and one W12
suppression carrying the justification, and the law holds of both
documents. -/
theorem wildcard_justification_law_witness :
    wcLaw .READ [ec2Grant] scenarioReadDoc ∧ wcLaw .WRITE [ec2Grant] scenarioWriteDoc := by
  refine wildcard_justification_law [ec2Grant] [] scenarioReadDoc scenarioWriteDoc
    (by decide) ?_
  intro g hg pat hpat r hr
  rw [List.mem_singleton] at hg
  subst hg
  rw [show ec2Grant.resourcePatterns = ["*"] from rfl, List.mem_singleton] at hpat
  subst hpat
  rw [show resolvePattern [] "*" = Except.ok "*" from rfl] at hr
  injection hr with h
  exact ⟨fun _ => rfl, fun _ => h.symm⟩

/-- C2 counterexample: a catalog whose only defect is an unresolved
placeholder does not surface a ValidationError: the scenario catalog
`[ddbGrant]` under the map missing `policyTable` fails with a
ResolutionError naming `policyTable`, which is not the validation error
the claim announces for this case. -/
theorem fail_closed_counterexample :
    compile [ddbGrant] ddbMap = .error (.resolution "policyTable") ∧
    (∀ v : List String, compile [ddbGrant] ddbMap ≠ .error (.validation v)) := by
  have h0 : compile [ddbGrant] ddbMap = .error (.resolution "policyTable") := by decide
  refine ⟨h0, ?_⟩
  intro v h
  rw [h0] at h
  injection h with h2
  cases h2

/-- C2 (amended): fail-closed, all-or-nothing compilation, proved of the
spec-modelled Statement Compiler: for every catalog containing a
structurally invalid grant (duplicate id, empty actions, empty resource
patterns, or a wildcard resource without justification), compilation
produces no document at all and surfaces the single aggregated
ValidationError `catalogViolations c`, which lists a message for every
violation of every kind present; an unresolved placeholder also aborts
compilation but surfaces a ResolutionError instead (see the
counterexample and C6). -/
theorem fail_closed_all_or_nothing (c : List Grant) (m : List (String × String))
    (hbad : ¬ (catalogIds c).Nodup ∨ ∃ g ∈ c, g.actions = [] ∨ g.resourcePatterns = [] ∨
      ("*" ∈ g.resourcePatterns ∧ g.justification = "")) :
    compile c m = .error (.validation (catalogViolations c)) ∧
    catalogViolations c ≠ [] ∧
    (∀ docs : PolicyDoc × PolicyDoc, compile c m ≠ .ok docs) ∧
    (∀ g ∈ c, g.actions = [] → ("grant " ++ g.id ++ ": empty actions") ∈ catalogViolations c) ∧
    (∀ g ∈ c, g.resourcePatterns = [] →
      ("grant " ++ g.id ++ ": empty resourcePatterns") ∈ catalogViolations c) ∧
    (∀ g ∈ c, "*" ∈ g.resourcePatterns → g.justification = "" →
      ("grant " ++ g.id ++ ": wildcard resource without justification") ∈ catalogViolations c) ∧
    (∀ i, 1 < (catalogIds c).count i → ("duplicate grant id: " ++ i) ∈ catalogViolations c) := by
  have hne : catalogViolations c ≠ [] := by
    rcases hbad with h | ⟨g, hg, hcase⟩
    · rw [List.nodup_iff_count_le_one] at h
      push_neg at h
      obtain ⟨i, hi⟩ := h
      exact List.ne_nil_of_mem (dup_msg hi)
    · rcases hcase with h | h | ⟨hw, hj⟩
      · exact List.ne_nil_of_mem (mem_catalogViolations_of_grant hg (emptyActions_msg h))
      · exact List.ne_nil_of_mem (mem_catalogViolations_of_grant hg (emptyPatterns_msg h))
      · exact List.ne_nil_of_mem
          (mem_catalogViolations_of_grant hg (missingJustification_msg hw hj))
  have hcomp : compile c m = .error (.validation (catalogViolations c)) := by
    unfold compile
    rw [if_neg hne]
  refine ⟨hcomp, hne, ?_, ?_, ?_, ?_, ?_⟩
  · intro docs h
    rw [hcomp] at h
    cases h
  · exact fun g hg h => mem_catalogViolations_of_grant hg (emptyActions_msg h)
  · exact fun g hg h => mem_catalogViolations_of_grant hg (emptyPatterns_msg h)
  · exact fun g hg hw hj => mem_catalogViolations_of_grant hg (missingJustification_msg hw hj)
  · exact fun i hi => dup_msg hi

/-- C2 witness: the fail-closed theorem applied to the concrete catalog
holding the same grant twice (the specification's duplicate-id
scenario). -/
theorem fail_closed_witness :
    compile [sqsGrant, sqsGrant] [] =
      .error (.validation (catalogViolations [sqsGrant, sqsGrant])) :=
  (fail_closed_all_or_nothing [sqsGrant, sqsGrant] [] (Or.inl (by decide))).1

/-- C6: Resolution failure, proved of the spec-modelled Statement
Compiler: for every structurally valid catalog and identifier map missing
a placeholder required by some grant's templated resource pattern,
compilation produces no document and fails with a ResolutionError whose
name is a placeholder of some grant's pattern that is absent from the
map. -/
theorem resolution_failure_names_missing (c : List Grant) (m : List (String × String))
    (hv : catalogViolations c = [])
    (hmiss : ∃ g ∈ c, ∃ pat ∈ g.resourcePatterns, ∃ x ∈ placeholders pat,
      List.lookup x m = none) :
    ∃ y, compile c m = .error (.resolution y) ∧ List.lookup y m = none ∧
      ∃ g ∈ c, ∃ pat ∈ g.resourcePatterns, y ∈ placeholders pat := by
  unfold compile
  rw [if_pos hv]
  cases hrc : resolveCatalog m c with
  | error y =>
    obtain ⟨hy, hlk⟩ := resolveCatalog_error_missing _ _ hrc
    exact ⟨y, rfl, hlk, hy⟩
  | ok rc =>
    obtain ⟨g, hg, pat, hpat, x, hx, hlk⟩ := hmiss
    obtain ⟨v, hv2⟩ := resolveCatalog_ok_lookup _ _ hrc g hg pat hpat x hx
    rw [hlk] at hv2
    cases hv2

/-- C6 witness: the specification's scenario — the catalog with the WRITE
grant on the templated DynamoDB pattern, under the map missing
`policyTable`, fails with a ResolutionError naming a missing placeholder
(concretely `policyTable`, as the C2 counterexample evaluates). -/
theorem resolution_failure_witness :
    ∃ y, compile [ddbGrant] ddbMap = .error (.resolution y) ∧
      List.lookup y ddbMap = none ∧
      ∃ g ∈ [ddbGrant], ∃ pat ∈ g.resourcePatterns, y ∈ placeholders pat :=
  resolution_failure_names_missing [ddbGrant] ddbMap (by decide) (by decide)

end FMSIam
